import Mathlib

set_option maxRecDepth 8000

namespace Reloj

/-- Discrete step on a clock hand: the value stored at each ring position
(dataclass HandState in engine.py). -/
structure HandState where
  index : ℕ
  angle_degrees : ℚ
deriving DecidableEq

/-- Angles for each hand at a specific instant (dataclass ChronographSnapshot). -/
structure ChronographSnapshot where
  seconds_angle : ℚ
  minutes_angle : ℚ
  hours_angle : ℚ
deriving DecidableEq

/-- Doubly circular linked list with an addressable current node
(linked_list.py), embedded as the list of node values in ring order together
with the position of the current node.  Following the next or prev pointer of
a node moves its position by one modulo the length, so stepping n times from
position c lands at position (c + n) mod length. -/
structure DoublyCircularLinkedList (α : Type) where
  values : List α
  current : ℕ
deriving DecidableEq

namespace DoublyCircularLinkedList

/-- DoublyCircularLinkedList(values): append each value in order; the current
pointer ends at the head, position 0. -/
def ofList {α : Type} (vs : List α) : DoublyCircularLinkedList α :=
  { values := vs, current := 0 }

/-- current_value property: raises when the list is empty, otherwise the value
at the current node. -/
def current_value {α : Type} (l : DoublyCircularLinkedList α) : Except String α :=
  if h : l.current < l.values.length then .ok (l.values.get ⟨l.current, h⟩)
  else .error "The list is empty."

/-- step_forward(steps): raises on an empty list; otherwise follows next
pointers steps mod size times. -/
def step_forward {α : Type} (l : DoublyCircularLinkedList α) (steps : ℤ) :
    Except String (DoublyCircularLinkedList α) :=
  if l.values.length = 0 then .error "The list is empty."
  else
    let normalized := (steps % (l.values.length : ℤ)).toNat
    .ok { l with current := (l.current + normalized) % l.values.length }

/-- step_backward(steps): raises on an empty list; otherwise follows prev
pointers steps mod size times. -/
def step_backward {α : Type} (l : DoublyCircularLinkedList α) (steps : ℤ) :
    Except String (DoublyCircularLinkedList α) :=
  if l.values.length = 0 then .error "The list is empty."
  else
    let normalized := (steps % (l.values.length : ℤ)).toNat
    .ok { l with current := (l.current + (l.values.length - normalized)) % l.values.length }

end DoublyCircularLinkedList

/-- Clock hand backed by a doubly circular linked list (class HandRing). -/
structure HandRing where
  positions : ℕ
  degrees_per_step : ℚ
  ring : DoublyCircularLinkedList HandState
  current_index : ℕ
deriving DecidableEq

namespace HandRing

/-- HandRing.__init__(positions, degrees_per_step): raises ValueError when
positions is not positive, otherwise builds the ring of HandStates for
indices 0..positions-1 with angle i * degrees_per_step and cursor 0. -/
def make (positions : ℤ) (degrees_per_step : ℚ) : Except String HandRing :=
  if positions ≤ 0 then .error "positions must be positive."
  else .ok
    { positions := positions.toNat
      degrees_per_step := degrees_per_step
      ring := .ofList ((List.range positions.toNat).map fun i =>
        { index := i, angle_degrees := (i : ℚ) * degrees_per_step })
      current_index := 0 }

/-- base_angle property: angle_degrees of the ring's current value. -/
def base_angle (r : HandRing) : Except String ℚ :=
  r.ring.current_value.map fun v => v.angle_degrees

/-- move_to_index(target_index): normalize the target mod positions, compute
forward and backward step counts, traverse the shorter way (ties forward),
then record the index of the node that became current. -/
def move_to_index (r : HandRing) (target_index : ℤ) : Except String HandRing :=
  let normalized_target := target_index % (r.positions : ℤ)
  let forward_steps := (normalized_target - (r.current_index : ℤ)) % (r.positions : ℤ)
  let backward_steps := ((r.current_index : ℤ) - normalized_target) % (r.positions : ℤ)
  match (if forward_steps ≤ backward_steps then r.ring.step_forward forward_steps
         else r.ring.step_backward backward_steps) with
  | .error msg => .error msg
  | .ok ring' =>
    match ring'.current_value with
    | .error msg => .error msg
    | .ok v => .ok { r with ring := ring', current_index := v.index }

/-- angle_with_fraction(fraction): clamp the fraction to the unit interval and
add that fraction of one step to the base angle. -/
def angle_with_fraction (r : HandRing) (fraction : ℚ) : Except String ℚ :=
  let clamped_fraction := max 0 (min 1 fraction)
  r.base_angle.map fun b => b + clamped_fraction * r.degrees_per_step

/-- A HandRing as produced by make and preserved by moves: positive size, the
ring holds exactly the HandStates of indices 0..positions-1 in order, the
cursor is in range, and the mirrored current_index agrees with the cursor. -/
def Valid (r : HandRing) : Prop :=
  0 < r.positions ∧
  r.ring.values = (List.range r.positions).map (fun i =>
    { index := i, angle_degrees := (i : ℚ) * r.degrees_per_step }) ∧
  r.ring.current < r.positions ∧
  r.current_index = r.ring.current

instance (r : HandRing) : Decidable r.Valid := by
  unfold Valid
  exact inferInstance

end HandRing

/-- Python datetime instants are embedded as a whole number of microseconds
counted from a reference midnight; the datetime fields are recovered with
floor division and floor remainder, which matches the field ranges of real
datetime values (second and microsecond are non-negative and bounded). -/
def DateTime.microsecond (t : ℤ) : ℤ := t % 1000000

/-- Seconds field of an instant. -/
def DateTime.second (t : ℤ) : ℤ := (t / 1000000) % 60

/-- Minutes field of an instant. -/
def DateTime.minute (t : ℤ) : ℤ := (t / 60000000) % 60

/-- Hours field of an instant. -/
def DateTime.hour (t : ℤ) : ℤ := (t / 3600000000) % 24

/-- Truncation toward zero: the behaviour of int() applied to a float. -/
def ratTrunc (x : ℚ) : ℤ := if 0 ≤ x then ⌊x⌋ else -⌊-x⌋

/-- Remainder with the sign of the divisor: the behaviour of the float %
operator (all divisors used by the engine are positive). -/
def qfmod (x y : ℚ) : ℚ := x - y * ⌊x / y⌋

/-- Engine state (class ChronographEngine): the three hands, the mode string,
and the stopwatch bookkeeping.  Durations (timedelta values) are microsecond
counts; the stopwatch start time is an optional instant. -/
structure ChronographEngine where
  seconds_hand : HandRing
  minutes_hand : HandRing
  hours_hand : HandRing
  mode : String
  stopwatch_running : Bool
  stopwatch_accumulated : ℤ
  stopwatch_start_time : Option ℤ
deriving DecidableEq

namespace ChronographEngine

def MODE_CLOCK : String := "clock"

def MODE_STOPWATCH : String := "stopwatch"

/-- The injected time source is a stream of instants clock 0, clock 1, ...;
reading the current time consumes the next position. -/
def current_time (clock : ℕ → ℤ) (k : ℕ) : ℤ × ℕ := (clock k, k + 1)

/-- ChronographEngine.__init__: three hands (60 at 6 degrees, 60 at 6 degrees,
720 at half a degree), clock mode, stopwatch stopped with zero accumulation. -/
def init : Except String ChronographEngine := do
  let s ← HandRing.make 60 6
  let m ← HandRing.make 60 6
  let h ← HandRing.make 720 (1/2)
  .ok { seconds_hand := s, minutes_hand := m, hours_hand := h,
        mode := MODE_CLOCK, stopwatch_running := false,
        stopwatch_accumulated := 0, stopwatch_start_time := none }

/-- set_mode(mode): raises on an unknown mode string; no-op when the mode is
unchanged; switching to clock stops the stopwatch and clears its start time. -/
def set_mode (e : ChronographEngine) (mode : String) : Except String ChronographEngine :=
  if mode ≠ MODE_CLOCK ∧ mode ≠ MODE_STOPWATCH then
    .error "mode must be clock or stopwatch."
  else if e.mode = mode then .ok e
  else if mode = MODE_CLOCK then
    .ok { e with stopwatch_running := false, stopwatch_start_time := none, mode := mode }
  else .ok { e with mode := mode }

/-- The engine state after a set_mode call completes, normally or with the
exception propagating: a raise leaves the object untouched. -/
def set_mode_run (e : ChronographEngine) (mode : String) : ChronographEngine :=
  match set_mode e mode with
  | .ok e' => e'
  | .error _ => e

/-- start_stopwatch: switch to stopwatch mode if needed, then if not already
running record the running flag and a fresh start time. -/
def start_stopwatch (clock : ℕ → ℤ) (e : ChronographEngine) (k : ℕ) :
    Except String (ChronographEngine × ℕ) := do
  let e ← if e.mode ≠ MODE_STOPWATCH then set_mode e MODE_STOPWATCH else .ok e
  if e.stopwatch_running then .ok (e, k)
  else
    let p := current_time clock k
    .ok ({ e with stopwatch_running := true, stopwatch_start_time := some p.1 }, p.2)

/-- stop_stopwatch: no-op when not running, otherwise fold now - start into the
accumulated duration and clear the running state. -/
def stop_stopwatch (clock : ℕ → ℤ) (e : ChronographEngine) (k : ℕ) :
    ChronographEngine × ℕ :=
  if e.stopwatch_running then
    let p := current_time clock k
    let e' := match e.stopwatch_start_time with
      | some st => { e with stopwatch_accumulated := e.stopwatch_accumulated + (p.1 - st) }
      | none => e
    ({ e' with stopwatch_running := false, stopwatch_start_time := none }, p.2)
  else (e, k)

/-- reset_stopwatch: zero the accumulation; while running the start time
restarts at now, otherwise it is cleared. -/
def reset_stopwatch (clock : ℕ → ℤ) (e : ChronographEngine) (k : ℕ) :
    ChronographEngine × ℕ :=
  let e' := { e with stopwatch_accumulated := 0 }
  if e'.stopwatch_running then
    let p := current_time clock k
    ({ e' with stopwatch_start_time := some p.1 }, p.2)
  else ({ e' with stopwatch_start_time := none }, k)

/-- is_stopwatch_running accessor. -/
def is_stopwatch_running (e : ChronographEngine) : Bool := e.stopwatch_running

/-- stopwatch_elapsed: the accumulated duration, plus now - start when running
with a start time on record (the only case that reads the time source). -/
def stopwatch_elapsed (clock : ℕ → ℤ) (e : ChronographEngine) (k : ℕ) : ℤ × ℕ :=
  let elapsed := e.stopwatch_accumulated
  match e.stopwatch_running, e.stopwatch_start_time with
  | true, some st =>
    let p := current_time clock k
    (elapsed + (p.1 - st), p.2)
  | _, _ => (elapsed, k)

/-- snapshot: in stopwatch mode, derive the three indices and fractions from
the elapsed duration in seconds; otherwise read the time source once and
derive them from the datetime fields; move each hand to its index and return
the three interpolated angles together with the mutated engine. -/
def snapshot (clock : ℕ → ℤ) (e : ChronographEngine) (k : ℕ) :
    Except String (ChronographSnapshot × ChronographEngine × ℕ) :=
  if e.mode = MODE_STOPWATCH then do
    let p := stopwatch_elapsed clock e k
    let seconds_total : ℚ := (p.1 : ℚ) / 1000000
    let seconds_float := qfmod seconds_total 60
    let seconds_index := ratTrunc seconds_float
    let seconds_fraction := seconds_float - (seconds_index : ℚ)
    let seconds_hand ← e.seconds_hand.move_to_index seconds_index
    let seconds_angle ← seconds_hand.angle_with_fraction seconds_fraction
    let minutes_total := seconds_total / 60
    let minutes_float := qfmod minutes_total 60
    let minutes_index := ratTrunc minutes_float
    let minutes_fraction := minutes_float - (minutes_index : ℚ)
    let minutes_hand ← e.minutes_hand.move_to_index minutes_index
    let minutes_angle ← minutes_hand.angle_with_fraction minutes_fraction
    let total_minutes := qfmod minutes_total 720
    let hours_index := ratTrunc total_minutes
    let hours_fraction := total_minutes - (hours_index : ℚ)
    let hours_hand ← e.hours_hand.move_to_index hours_index
    let hours_angle ← hours_hand.angle_with_fraction hours_fraction
    .ok ({ seconds_angle := seconds_angle, minutes_angle := minutes_angle,
           hours_angle := hours_angle },
         { e with seconds_hand := seconds_hand, minutes_hand := minutes_hand,
                  hours_hand := hours_hand }, p.2)
  else do
    let p := current_time clock k
    let now := p.1
    let seconds_float : ℚ :=
      (DateTime.second now : ℚ) + (DateTime.microsecond now : ℚ) / 1000000
    let seconds_index := ratTrunc seconds_float % 60
    let seconds_fraction := seconds_float - (seconds_index : ℚ)
    let seconds_hand ← e.seconds_hand.move_to_index seconds_index
    let seconds_angle ← seconds_hand.angle_with_fraction seconds_fraction
    let minutes_float := (DateTime.minute now : ℚ) + seconds_float / 60
    let minutes_index := ratTrunc minutes_float % 60
    let minutes_fraction := minutes_float - (minutes_index : ℚ)
    let minutes_hand ← e.minutes_hand.move_to_index minutes_index
    let minutes_angle ← minutes_hand.angle_with_fraction minutes_fraction
    let total_minutes := ((DateTime.hour now % 12 * 60 : ℤ) : ℚ) + minutes_float
    let hours_index := ratTrunc total_minutes % 720
    let hours_fraction := total_minutes - (hours_index : ℚ)
    let hours_hand ← e.hours_hand.move_to_index hours_index
    let hours_angle ← hours_hand.angle_with_fraction hours_fraction
    .ok ({ seconds_angle := seconds_angle, minutes_angle := minutes_angle,
           hours_angle := hours_angle },
         { e with seconds_hand := seconds_hand, minutes_hand := minutes_hand,
                  hours_hand := hours_hand }, p.2)

/-- A well-formed engine: each hand is a valid ring with the sizes and step
angles fixed by the constructor. -/
def Valid (e : ChronographEngine) : Prop :=
  e.seconds_hand.Valid ∧ e.seconds_hand.positions = 60 ∧ e.seconds_hand.degrees_per_step = 6 ∧
  e.minutes_hand.Valid ∧ e.minutes_hand.positions = 60 ∧ e.minutes_hand.degrees_per_step = 6 ∧
  e.hours_hand.Valid ∧ e.hours_hand.positions = 720 ∧ e.hours_hand.degrees_per_step = 1/2

instance (e : ChronographEngine) : Decidable e.Valid := by
  unfold Valid
  exact inferInstance

/-- The stopwatch invariant of the data model: the start time is recorded
exactly while the stopwatch is running. -/
def StopwatchInv (e : ChronographEngine) : Prop :=
  e.stopwatch_start_time.isSome = e.stopwatch_running

instance (e : ChronographEngine) : Decidable e.StopwatchInv := by
  unfold StopwatchInv
  exact inferInstance

end ChronographEngine

/-- The freshly constructed engine, written out. -/
def engine0 : ChronographEngine :=
  { seconds_hand :=
      { positions := 60, degrees_per_step := 6
        ring := .ofList ((List.range 60).map fun i =>
          { index := i, angle_degrees := (i : ℚ) * 6 })
        current_index := 0 }
    minutes_hand :=
      { positions := 60, degrees_per_step := 6
        ring := .ofList ((List.range 60).map fun i =>
          { index := i, angle_degrees := (i : ℚ) * 6 })
        current_index := 0 }
    hours_hand :=
      { positions := 720, degrees_per_step := 1/2
        ring := .ofList ((List.range 720).map fun i =>
          { index := i, angle_degrees := (i : ℚ) * (1/2) })
        current_index := 0 }
    mode := ChronographEngine.MODE_CLOCK
    stopwatch_running := false
    stopwatch_accumulated := 0
    stopwatch_start_time := none }

/-- Clamping to the unit interval, as angle_with_fraction does. -/
def clamp01 (f : ℚ) : ℚ := max 0 (min 1 f)

/-- Cursor and ring of a hand after a successful move_to_index to the given
target: the cursor lands on the non-negative remainder of the target modulo
the position count, the stored values are untouched. -/
def HandRing.movedTo (r : HandRing) (t : ℤ) : HandRing :=
  { r with
    ring := { values := r.ring.values, current := (t % (r.positions : ℤ)).toNat }
    current_index := (t % (r.positions : ℤ)).toNat }

/-- seconds_float of the clock branch of snapshot, as a function of the
instant read from the time source. -/
def clockSecondsFloat (t : ℤ) : ℚ :=
  (DateTime.second t : ℚ) + (DateTime.microsecond t : ℚ) / 1000000

/-- seconds_index of the clock branch. -/
def clockSecondsTarget (t : ℤ) : ℤ := ratTrunc (clockSecondsFloat t) % 60

/-- minutes_float of the clock branch. -/
def clockMinutesFloat (t : ℤ) : ℚ := (DateTime.minute t : ℚ) + clockSecondsFloat t / 60

/-- minutes_index of the clock branch. -/
def clockMinutesTarget (t : ℤ) : ℤ := ratTrunc (clockMinutesFloat t) % 60

/-- total_minutes of the clock branch. -/
def clockTotalMinutes (t : ℤ) : ℚ :=
  ((DateTime.hour t % 12 * 60 : ℤ) : ℚ) + clockMinutesFloat t

/-- hours_index of the clock branch. -/
def clockHoursTarget (t : ℤ) : ℤ := ratTrunc (clockTotalMinutes t) % 720

/-- The snapshot produced by the clock branch for a given instant: each angle
is the angle of the ring position the hand lands on plus the clamped fraction
of one step. -/
def clockSnap (t : ℤ) : ChronographSnapshot :=
  { seconds_angle := (((clockSecondsTarget t % 60).toNat : ℕ) : ℚ) * 6 +
      clamp01 (clockSecondsFloat t - (clockSecondsTarget t : ℚ)) * 6
    minutes_angle := (((clockMinutesTarget t % 60).toNat : ℕ) : ℚ) * 6 +
      clamp01 (clockMinutesFloat t - (clockMinutesTarget t : ℚ)) * 6
    hours_angle := (((clockHoursTarget t % 720).toNat : ℕ) : ℚ) * (1/2) +
      clamp01 (clockTotalMinutes t - (clockHoursTarget t : ℚ)) * (1/2) }

/-- seconds_float of the stopwatch branch, as a function of the elapsed
duration in seconds. -/
def stopSecondsFloat (st : ℚ) : ℚ := qfmod st 60

/-- seconds_index of the stopwatch branch. -/
def stopSecondsTarget (st : ℚ) : ℤ := ratTrunc (stopSecondsFloat st)

/-- minutes_float of the stopwatch branch. -/
def stopMinutesFloat (st : ℚ) : ℚ := qfmod (st / 60) 60

/-- minutes_index of the stopwatch branch. -/
def stopMinutesTarget (st : ℚ) : ℤ := ratTrunc (stopMinutesFloat st)

/-- total_minutes of the stopwatch branch. -/
def stopTotalMinutes (st : ℚ) : ℚ := qfmod (st / 60) 720

/-- hours_index of the stopwatch branch. -/
def stopHoursTarget (st : ℚ) : ℤ := ratTrunc (stopTotalMinutes st)

/-- The snapshot produced by the stopwatch branch for a given elapsed duration
in seconds. -/
def stopSnap (st : ℚ) : ChronographSnapshot :=
  { seconds_angle := (((stopSecondsTarget st % 60).toNat : ℕ) : ℚ) * 6 +
      clamp01 (stopSecondsFloat st - (stopSecondsTarget st : ℚ)) * 6
    minutes_angle := (((stopMinutesTarget st % 60).toNat : ℕ) : ℚ) * 6 +
      clamp01 (stopMinutesFloat st - (stopMinutesTarget st : ℚ)) * 6
    hours_angle := (((stopHoursTarget st % 720).toNat : ℕ) : ℚ) * (1/2) +
      clamp01 (stopTotalMinutes st - (stopHoursTarget st : ℚ)) * (1/2) }

/-- The engine switched to stopwatch mode right after construction. -/
def engineSW : ChronographEngine := { engine0 with mode := ChronographEngine.MODE_STOPWATCH }

/-- The instant 03:15:30.500000 of the first test scenario, in microseconds
after midnight. -/
def instantC2 : ℤ := 11730500000

/-- A time source frozen at the scenario 1 instant. -/
def clockC2 : ℕ → ℤ := fun _ => instantC2

/-- The four instants of the progression test: 10:00:00 as the base, then
1 second, a further 59 seconds, and a further 1 hour 5 minutes 45 seconds. -/
def c7times : List ℤ := [36000000000, 36001000000, 36060000000, 40005000000]

/-- A time source producing the four progression instants in order. -/
def clock7 : ℕ → ℤ := fun k => c7times.getD k 0

/-- The four snapshots the engine produces for the progression instants. -/
def c7run : Except String
    (ChronographSnapshot × ChronographSnapshot × ChronographSnapshot × ChronographSnapshot) := do
  let (s1, e1, k1) ← ChronographEngine.snapshot clock7 engine0 0
  let (s2, e2, k2) ← ChronographEngine.snapshot clock7 e1 k1
  let (s3, e3, k3) ← ChronographEngine.snapshot clock7 e2 k2
  let (s4, _, _) ← ChronographEngine.snapshot clock7 e3 k3
  .ok (s1, s2, s3, s4)

theorem init_eq_engine0 : ChronographEngine.init = .ok engine0 := rfl

theorem except_bind_eq_ok {ε α β : Type} {x : Except ε α} {f : α → Except ε β} {b : β} :
    (x >>= f) = .ok b ↔ ∃ a, x = .ok a ∧ f a = .ok b := by
  cases x <;> simp [Bind.bind, Except.bind]

theorem cursor_fwd (N c : ℕ) (n : ℤ) (hN : 0 < N) (hn0 : 0 ≤ n) (hnN : n < (N : ℤ)) :
    (c + ((n - (c : ℤ)) % (N : ℤ)).toNat) % N = n.toNat := by
  have hNz : ((N : ℤ)) ≠ 0 := by exact_mod_cast hN.ne'
  have hd0 : 0 ≤ (n - (c : ℤ)) % (N : ℤ) := Int.emod_nonneg _ hNz
  have key : ((c : ℤ) + (n - (c : ℤ)) % (N : ℤ)) % (N : ℤ) = n := by
    rw [Int.add_emod, Int.emod_emod_of_dvd _ dvd_rfl, ← Int.add_emod,
      show (c : ℤ) + (n - (c : ℤ)) = n by ring]
    exact Int.emod_eq_of_lt hn0 hnN
  have hcast : (((c + ((n - (c : ℤ)) % (N : ℤ)).toNat) % N : ℕ) : ℤ) = n := by
    push_cast [Int.toNat_of_nonneg hd0]
    exact key
  omega

theorem cursor_bwd (N c : ℕ) (n : ℤ) (hN : 0 < N) (hn0 : 0 ≤ n) (hnN : n < (N : ℤ)) :
    (c + (N - (((c : ℤ) - n) % (N : ℤ)).toNat)) % N = n.toNat := by
  have hNz : ((N : ℤ)) ≠ 0 := by exact_mod_cast hN.ne'
  have hd0 : 0 ≤ ((c : ℤ) - n) % (N : ℤ) := Int.emod_nonneg _ hNz
  have hdN : ((c : ℤ) - n) % (N : ℤ) < (N : ℤ) := Int.emod_lt_of_pos _ (by exact_mod_cast hN)
  have hdle : (((c : ℤ) - n) % (N : ℤ)).toNat ≤ N := by omega
  have key : ((c : ℤ) + ((N : ℤ) - ((c : ℤ) - n) % (N : ℤ))) % (N : ℤ) = n := by
    rw [show (c : ℤ) + ((N : ℤ) - ((c : ℤ) - n) % (N : ℤ))
        = ((c : ℤ) - ((c : ℤ) - n) % (N : ℤ)) + (N : ℤ) * 1 by ring,
      Int.add_mul_emod_self_left, Int.sub_emod, Int.emod_emod_of_dvd _ dvd_rfl,
      ← Int.sub_emod, show (c : ℤ) - ((c : ℤ) - n) = n by ring]
    exact Int.emod_eq_of_lt hn0 hnN
  have hcast : (((c + (N - (((c : ℤ) - n) % (N : ℤ)).toNat)) % N : ℕ) : ℤ) = n := by
    push_cast [Nat.cast_sub hdle, Int.toNat_of_nonneg hd0]
    exact key
  omega

theorem DoublyCircularLinkedList.step_forward_eq {α : Type} (l : DoublyCircularLinkedList α)
    (h : l.values.length ≠ 0) (s : ℤ) :
    l.step_forward s =
      .ok { l with current := (l.current + (s % (l.values.length : ℤ)).toNat) % l.values.length } := by
  simp [step_forward, h]

theorem DoublyCircularLinkedList.step_backward_eq {α : Type} (l : DoublyCircularLinkedList α)
    (h : l.values.length ≠ 0) (s : ℤ) :
    l.step_backward s =
      .ok { l with
            current := (l.current + (l.values.length - (s % (l.values.length : ℤ)).toNat)) % l.values.length } := by
  simp [step_backward, h]

theorem HandRing.values_length (r : HandRing) (h : r.Valid) :
    r.ring.values.length = r.positions := by
  rw [h.2.1]
  simp

theorem HandRing.current_value_eq (r : HandRing) (h : r.Valid) :
    r.ring.current_value = .ok
      { index := r.ring.current,
        angle_degrees := (r.ring.current : ℚ) * r.degrees_per_step } := by
  obtain ⟨hpos, hvals, hcur, hmirror⟩ := h
  have hlen : r.ring.values.length = r.positions := by rw [hvals]; simp
  unfold DoublyCircularLinkedList.current_value
  rw [dif_pos (by omega : r.ring.current < r.ring.values.length)]
  congr 1
  simp [List.get_eq_getElem, hvals]

theorem current_value_range_map (d : ℚ) (N i : ℕ) (hi : i < N) :
    DoublyCircularLinkedList.current_value
      { values := (List.range N).map (fun j =>
          ({ index := j, angle_degrees := (j : ℚ) * d } : HandState)), current := i }
      = .ok { index := i, angle_degrees := (i : ℚ) * d } := by
  unfold DoublyCircularLinkedList.current_value
  rw [dif_pos (by simpa using hi)]
  simp [List.get_eq_getElem]

theorem HandRing.move_to_index_eq (r : HandRing) (h : r.Valid) (t : ℤ) :
    r.move_to_index t = .ok (r.movedTo t) := by
  obtain ⟨hpos, hvals, hcur, hmirror⟩ := h
  have hlen : r.ring.values.length = r.positions := by rw [hvals]; simp
  have hlenne : r.ring.values.length ≠ 0 := by omega
  have hNz : ((r.positions : ℤ)) ≠ 0 := by exact_mod_cast hpos.ne'
  have hNpos : (0 : ℤ) < (r.positions : ℤ) := by exact_mod_cast hpos
  have hn0 : 0 ≤ t % (r.positions : ℤ) := Int.emod_nonneg _ hNz
  have hnN : t % (r.positions : ℤ) < (r.positions : ℤ) := Int.emod_lt_of_pos _ hNpos
  simp only [move_to_index, movedTo, hmirror]
  by_cases hle : (t % (r.positions : ℤ) - (r.ring.current : ℤ)) % (r.positions : ℤ) ≤
      ((r.ring.current : ℤ) - t % (r.positions : ℤ)) % (r.positions : ℤ)
  · have hfw0 : 0 ≤ (t % (r.positions : ℤ) - (r.ring.current : ℤ)) % (r.positions : ℤ) :=
      Int.emod_nonneg _ hNz
    have hfwN : (t % (r.positions : ℤ) - (r.ring.current : ℤ)) % (r.positions : ℤ) <
        (r.positions : ℤ) := Int.emod_lt_of_pos _ hNpos
    have hsf := r.ring.step_forward_eq hlenne
      ((t % (r.positions : ℤ) - (r.ring.current : ℤ)) % (r.positions : ℤ))
    rw [hlen, Int.emod_eq_of_lt hfw0 hfwN] at hsf
    have hc' : (r.ring.current +
        ((t % (r.positions : ℤ) - (r.ring.current : ℤ)) % (r.positions : ℤ)).toNat) %
        r.positions = (t % (r.positions : ℤ)).toNat :=
      cursor_fwd r.positions r.ring.current (t % (r.positions : ℤ)) hpos hn0 hnN
    rw [if_pos hle, hsf]
    have hlt : (t % (r.positions : ℤ)).toNat < r.positions := by omega
    simp only [hvals, hc']
    rw [current_value_range_map r.degrees_per_step r.positions _ hlt]
  · have hbw0 : 0 ≤ ((r.ring.current : ℤ) - t % (r.positions : ℤ)) % (r.positions : ℤ) :=
      Int.emod_nonneg _ hNz
    have hbwN : ((r.ring.current : ℤ) - t % (r.positions : ℤ)) % (r.positions : ℤ) <
        (r.positions : ℤ) := Int.emod_lt_of_pos _ hNpos
    have hsb := r.ring.step_backward_eq hlenne
      (((r.ring.current : ℤ) - t % (r.positions : ℤ)) % (r.positions : ℤ))
    rw [hlen, Int.emod_eq_of_lt hbw0 hbwN] at hsb
    have hc' : (r.ring.current + (r.positions -
        (((r.ring.current : ℤ) - t % (r.positions : ℤ)) % (r.positions : ℤ)).toNat)) %
        r.positions = (t % (r.positions : ℤ)).toNat :=
      cursor_bwd r.positions r.ring.current (t % (r.positions : ℤ)) hpos hn0 hnN
    rw [if_neg hle, hsb]
    have hlt : (t % (r.positions : ℤ)).toNat < r.positions := by omega
    simp only [hvals, hc']
    rw [current_value_range_map r.degrees_per_step r.positions _ hlt]

theorem HandRing.movedTo_valid (r : HandRing) (h : r.Valid) (t : ℤ) : (r.movedTo t).Valid := by
  obtain ⟨hpos, hvals, hcur, hmirror⟩ := h
  have hNz : ((r.positions : ℤ)) ≠ 0 := by exact_mod_cast hpos.ne'
  have hNpos : (0 : ℤ) < (r.positions : ℤ) := by exact_mod_cast hpos
  have hn0 : 0 ≤ t % (r.positions : ℤ) := Int.emod_nonneg _ hNz
  have hnN : t % (r.positions : ℤ) < (r.positions : ℤ) := Int.emod_lt_of_pos _ hNpos
  exact ⟨hpos, hvals, by simp [movedTo]; omega, rfl⟩

theorem HandRing.movedTo_positions (r : HandRing) (t : ℤ) :
    (r.movedTo t).positions = r.positions := rfl

theorem HandRing.movedTo_degrees (r : HandRing) (t : ℤ) :
    (r.movedTo t).degrees_per_step = r.degrees_per_step := rfl

theorem HandRing.movedTo_values (r : HandRing) (t : ℤ) :
    (r.movedTo t).ring.values = r.ring.values := rfl

theorem HandRing.movedTo_current_index (r : HandRing) (t : ℤ) :
    (r.movedTo t).current_index = (t % (r.positions : ℤ)).toNat := rfl

theorem HandRing.angle_with_fraction_eq (r : HandRing) (h : r.Valid) (f : ℚ) :
    r.angle_with_fraction f =
      .ok ((r.current_index : ℚ) * r.degrees_per_step + clamp01 f * r.degrees_per_step) := by
  have hcv := r.current_value_eq h
  simp [angle_with_fraction, base_angle, hcv, h.2.2.2, clamp01, Except.map]

theorem except_ok_bind {ε α β : Type} (a : α) (f : α → Except ε β) :
    ((Except.ok a : Except ε α) >>= f) = f a := rfl

theorem ChronographEngine.snapshot_clock_eq (clock : ℕ → ℤ) (e : ChronographEngine) (k : ℕ)
    (hv : e.Valid) (hm : ¬ e.mode = MODE_STOPWATCH) :
    ChronographEngine.snapshot clock e k = .ok (clockSnap (clock k),
      { e with seconds_hand := e.seconds_hand.movedTo (clockSecondsTarget (clock k))
               minutes_hand := e.minutes_hand.movedTo (clockMinutesTarget (clock k))
               hours_hand := e.hours_hand.movedTo (clockHoursTarget (clock k)) }, k + 1) := by
  obtain ⟨hs, hsp, hsd, hm1, hmp, hmd, hh, hhp, hhd⟩ := hv
  have hms := e.seconds_hand.move_to_index_eq hs (clockSecondsTarget (clock k))
  have hmm := e.minutes_hand.move_to_index_eq hm1 (clockMinutesTarget (clock k))
  have hmh := e.hours_hand.move_to_index_eq hh (clockHoursTarget (clock k))
  have has := (e.seconds_hand.movedTo (clockSecondsTarget (clock k))).angle_with_fraction_eq
    (e.seconds_hand.movedTo_valid hs _)
    (clockSecondsFloat (clock k) - (clockSecondsTarget (clock k) : ℚ))
  have ham := (e.minutes_hand.movedTo (clockMinutesTarget (clock k))).angle_with_fraction_eq
    (e.minutes_hand.movedTo_valid hm1 _)
    (clockMinutesFloat (clock k) - (clockMinutesTarget (clock k) : ℚ))
  have hah := (e.hours_hand.movedTo (clockHoursTarget (clock k))).angle_with_fraction_eq
    (e.hours_hand.movedTo_valid hh _)
    (clockTotalMinutes (clock k) - (clockHoursTarget (clock k) : ℚ))
  simp only [HandRing.movedTo_current_index, HandRing.movedTo_degrees, hsp, hsd, hmp, hmd,
    hhp, hhd] at has ham hah
  simp only [clockSecondsTarget, clockSecondsFloat, clockMinutesTarget, clockMinutesFloat,
    clockTotalMinutes, clockHoursTarget] at hms hmm hmh has ham hah
  simp only [snapshot, current_time, if_neg hm]
  simp only [hms, except_ok_bind, has, hmm, ham, hmh, hah]
  simp only [clockSnap, clockSecondsTarget, clockSecondsFloat, clockMinutesTarget,
    clockMinutesFloat, clockTotalMinutes, clockHoursTarget, clamp01, Nat.cast_ofNat]

theorem ChronographEngine.snapshot_stopwatch_eq (clock : ℕ → ℤ) (e : ChronographEngine) (k : ℕ)
    (hv : e.Valid) (hm : e.mode = MODE_STOPWATCH) :
    ChronographEngine.snapshot clock e k = .ok
      (stopSnap (((ChronographEngine.stopwatch_elapsed clock e k).1 : ℚ) / 1000000),
      { e with
        seconds_hand := e.seconds_hand.movedTo
          (stopSecondsTarget (((ChronographEngine.stopwatch_elapsed clock e k).1 : ℚ) / 1000000))
        minutes_hand := e.minutes_hand.movedTo
          (stopMinutesTarget (((ChronographEngine.stopwatch_elapsed clock e k).1 : ℚ) / 1000000))
        hours_hand := e.hours_hand.movedTo
          (stopHoursTarget (((ChronographEngine.stopwatch_elapsed clock e k).1 : ℚ) / 1000000)) },
      (ChronographEngine.stopwatch_elapsed clock e k).2) := by
  obtain ⟨hs, hsp, hsd, hm1, hmp, hmd, hh, hhp, hhd⟩ := hv
  have hms := e.seconds_hand.move_to_index_eq hs
    (stopSecondsTarget (((ChronographEngine.stopwatch_elapsed clock e k).1 : ℚ) / 1000000))
  have hmm := e.minutes_hand.move_to_index_eq hm1
    (stopMinutesTarget (((ChronographEngine.stopwatch_elapsed clock e k).1 : ℚ) / 1000000))
  have hmh := e.hours_hand.move_to_index_eq hh
    (stopHoursTarget (((ChronographEngine.stopwatch_elapsed clock e k).1 : ℚ) / 1000000))
  have has := (e.seconds_hand.movedTo
      (stopSecondsTarget (((ChronographEngine.stopwatch_elapsed clock e k).1 : ℚ) /
        1000000))).angle_with_fraction_eq
    (e.seconds_hand.movedTo_valid hs _)
    (stopSecondsFloat (((ChronographEngine.stopwatch_elapsed clock e k).1 : ℚ) / 1000000) -
      ((stopSecondsTarget (((ChronographEngine.stopwatch_elapsed clock e k).1 : ℚ) /
        1000000)) : ℚ))
  have ham := (e.minutes_hand.movedTo
      (stopMinutesTarget (((ChronographEngine.stopwatch_elapsed clock e k).1 : ℚ) /
        1000000))).angle_with_fraction_eq
    (e.minutes_hand.movedTo_valid hm1 _)
    (stopMinutesFloat (((ChronographEngine.stopwatch_elapsed clock e k).1 : ℚ) / 1000000) -
      ((stopMinutesTarget (((ChronographEngine.stopwatch_elapsed clock e k).1 : ℚ) /
        1000000)) : ℚ))
  have hah := (e.hours_hand.movedTo
      (stopHoursTarget (((ChronographEngine.stopwatch_elapsed clock e k).1 : ℚ) /
        1000000))).angle_with_fraction_eq
    (e.hours_hand.movedTo_valid hh _)
    (stopTotalMinutes (((ChronographEngine.stopwatch_elapsed clock e k).1 : ℚ) / 1000000) -
      ((stopHoursTarget (((ChronographEngine.stopwatch_elapsed clock e k).1 : ℚ) /
        1000000)) : ℚ))
  simp only [HandRing.movedTo_current_index, HandRing.movedTo_degrees, hsp, hsd, hmp, hmd,
    hhp, hhd] at has ham hah
  simp only [stopSecondsTarget, stopSecondsFloat, stopMinutesTarget, stopMinutesFloat,
    stopTotalMinutes, stopHoursTarget] at hms hmm hmh has ham hah
  simp only [snapshot, if_pos hm]
  simp only [hms, except_ok_bind, has, hmm, ham, hmh, hah]
  simp only [stopSnap, stopSecondsTarget, stopSecondsFloat, stopMinutesTarget,
    stopMinutesFloat, stopTotalMinutes, stopHoursTarget, clamp01, Nat.cast_ofNat]

theorem ratTrunc_of_nonneg (x : ℚ) (h : 0 ≤ x) : ratTrunc x = ⌊x⌋ := if_pos h

theorem qfmod_eq_fract (x y : ℚ) (hy : y ≠ 0) : qfmod x y = y * Int.fract (x / y) := by
  unfold qfmod Int.fract
  field_simp

theorem qfmod_nonneg (x y : ℚ) (hy : 0 < y) : 0 ≤ qfmod x y := by
  rw [qfmod_eq_fract x y hy.ne']
  exact mul_nonneg hy.le (Int.fract_nonneg _)

theorem qfmod_lt (x y : ℚ) (hy : 0 < y) : qfmod x y < y := by
  rw [qfmod_eq_fract x y hy.ne']
  calc y * Int.fract (x / y) < y * 1 := by
        exact mul_lt_mul_of_pos_left (Int.fract_lt_one _) hy
    _ = y := mul_one y

theorem snapField_bounds (x : ℚ) (tgt : ℤ) (N : ℕ) (d : ℚ) (hd : 0 < d)
    (htgt : tgt = ⌊x⌋) (hx0 : 0 ≤ x) (hxN : x < (N : ℚ)) :
    0 ≤ (((tgt % (N : ℤ)).toNat : ℕ) : ℚ) * d + clamp01 (x - (tgt : ℚ)) * d ∧
    (((tgt % (N : ℤ)).toNat : ℕ) : ℚ) * d + clamp01 (x - (tgt : ℚ)) * d < (N : ℚ) * d := by
  subst htgt
  have h0 : 0 ≤ ⌊x⌋ := Int.floor_nonneg.mpr hx0
  have hNlt : ⌊x⌋ < (N : ℤ) := by
    rw [Int.floor_lt]
    exact_mod_cast hxN
  have hmod : ⌊x⌋ % (N : ℤ) = ⌊x⌋ := Int.emod_eq_of_lt h0 hNlt
  rw [hmod]
  have htoNat : ((⌊x⌋.toNat : ℕ) : ℚ) = ((⌊x⌋ : ℤ) : ℚ) := by
    exact_mod_cast Int.toNat_of_nonneg h0
  rw [htoNat]
  have hfr0 : 0 ≤ x - ((⌊x⌋ : ℤ) : ℚ) := by
    have := Int.floor_le x
    linarith
  have hfr1 : x - ((⌊x⌋ : ℤ) : ℚ) < 1 := by
    have := Int.lt_floor_add_one x
    linarith
  have hclamp : clamp01 (x - ((⌊x⌋ : ℤ) : ℚ)) = x - ((⌊x⌋ : ℤ) : ℚ) := by
    unfold clamp01
    rw [min_eq_right hfr1.le, max_eq_right hfr0]
  rw [hclamp]
  have hfl0 : (0 : ℚ) ≤ ((⌊x⌋ : ℤ) : ℚ) := by exact_mod_cast h0
  constructor
  · have := mul_nonneg hfl0 hd.le
    have := mul_nonneg hfr0 hd.le
    linarith
  · have hsum : ((⌊x⌋ : ℤ) : ℚ) * d + (x - ((⌊x⌋ : ℤ) : ℚ)) * d = x * d := by ring
    rw [hsum]
    exact mul_lt_mul_of_pos_right hxN hd

theorem DateTime.microsecond_bounds (t : ℤ) :
    0 ≤ DateTime.microsecond t ∧ DateTime.microsecond t < 1000000 :=
  ⟨Int.emod_nonneg _ (by norm_num), Int.emod_lt_of_pos _ (by norm_num)⟩

theorem DateTime.second_bounds (t : ℤ) : 0 ≤ DateTime.second t ∧ DateTime.second t < 60 :=
  ⟨Int.emod_nonneg _ (by norm_num), Int.emod_lt_of_pos _ (by norm_num)⟩

theorem DateTime.minute_bounds (t : ℤ) : 0 ≤ DateTime.minute t ∧ DateTime.minute t < 60 :=
  ⟨Int.emod_nonneg _ (by norm_num), Int.emod_lt_of_pos _ (by norm_num)⟩

theorem DateTime.hour_bounds (t : ℤ) : 0 ≤ DateTime.hour t ∧ DateTime.hour t < 24 :=
  ⟨Int.emod_nonneg _ (by norm_num), Int.emod_lt_of_pos _ (by norm_num)⟩

theorem clockSecondsFloat_bounds (t : ℤ) :
    0 ≤ clockSecondsFloat t ∧ clockSecondsFloat t < 60 := by
  obtain ⟨hs0, hs1⟩ := DateTime.second_bounds t
  obtain ⟨hu0, hu1⟩ := DateTime.microsecond_bounds t
  have hs0q : (0 : ℚ) ≤ (DateTime.second t : ℚ) := by exact_mod_cast hs0
  have hs1q : (DateTime.second t : ℚ) ≤ 59 := by exact_mod_cast (by omega : DateTime.second t ≤ 59)
  have hu0q : (0 : ℚ) ≤ (DateTime.microsecond t : ℚ) := by exact_mod_cast hu0
  have hu1q : (DateTime.microsecond t : ℚ) < 1000000 := by exact_mod_cast hu1
  unfold clockSecondsFloat
  constructor
  · positivity
  · have : (DateTime.microsecond t : ℚ) / 1000000 < 1 := by
      rw [div_lt_one (by norm_num)]
      exact hu1q
    linarith

theorem clockMinutesFloat_bounds (t : ℤ) :
    0 ≤ clockMinutesFloat t ∧ clockMinutesFloat t < 60 := by
  obtain ⟨hm0, hm1⟩ := DateTime.minute_bounds t
  obtain ⟨hf0, hf1⟩ := clockSecondsFloat_bounds t
  have hm0q : (0 : ℚ) ≤ (DateTime.minute t : ℚ) := by exact_mod_cast hm0
  have hm1q : (DateTime.minute t : ℚ) ≤ 59 := by exact_mod_cast (by omega : DateTime.minute t ≤ 59)
  unfold clockMinutesFloat
  constructor
  · positivity
  · have : clockSecondsFloat t / 60 < 1 := by
      rw [div_lt_one (by norm_num)]
      exact hf1
    linarith

theorem clockTotalMinutes_bounds (t : ℤ) :
    0 ≤ clockTotalMinutes t ∧ clockTotalMinutes t < 720 := by
  obtain ⟨hh0, hh1⟩ := DateTime.hour_bounds t
  obtain ⟨hf0, hf1⟩ := clockMinutesFloat_bounds t
  have h120 : 0 ≤ DateTime.hour t % 12 := Int.emod_nonneg _ (by norm_num)
  have h121 : DateTime.hour t % 12 < 12 := Int.emod_lt_of_pos _ (by norm_num)
  have hq0 : (0 : ℚ) ≤ ((DateTime.hour t % 12 * 60 : ℤ) : ℚ) := by
    exact_mod_cast (by omega : 0 ≤ DateTime.hour t % 12 * 60)
  have hq1 : ((DateTime.hour t % 12 * 60 : ℤ) : ℚ) ≤ 660 := by
    exact_mod_cast (by omega : DateTime.hour t % 12 * 60 ≤ 660)
  unfold clockTotalMinutes
  constructor
  · linarith
  · linarith

theorem clockSecondsTarget_eq_floor (t : ℤ) : clockSecondsTarget t = ⌊clockSecondsFloat t⌋ := by
  obtain ⟨h0, h1⟩ := clockSecondsFloat_bounds t
  unfold clockSecondsTarget
  rw [ratTrunc_of_nonneg _ h0]
  exact Int.emod_eq_of_lt (Int.floor_nonneg.mpr h0) (by rw [Int.floor_lt]; exact_mod_cast h1)

theorem clockMinutesTarget_eq_floor (t : ℤ) : clockMinutesTarget t = ⌊clockMinutesFloat t⌋ := by
  obtain ⟨h0, h1⟩ := clockMinutesFloat_bounds t
  unfold clockMinutesTarget
  rw [ratTrunc_of_nonneg _ h0]
  exact Int.emod_eq_of_lt (Int.floor_nonneg.mpr h0) (by rw [Int.floor_lt]; exact_mod_cast h1)

theorem clockHoursTarget_eq_floor (t : ℤ) : clockHoursTarget t = ⌊clockTotalMinutes t⌋ := by
  obtain ⟨h0, h1⟩ := clockTotalMinutes_bounds t
  unfold clockHoursTarget
  rw [ratTrunc_of_nonneg _ h0]
  exact Int.emod_eq_of_lt (Int.floor_nonneg.mpr h0) (by rw [Int.floor_lt]; exact_mod_cast h1)

theorem clockSnap_bounds (t : ℤ) :
    (0 ≤ (clockSnap t).seconds_angle ∧ (clockSnap t).seconds_angle < 360) ∧
    (0 ≤ (clockSnap t).minutes_angle ∧ (clockSnap t).minutes_angle < 360) ∧
    (0 ≤ (clockSnap t).hours_angle ∧ (clockSnap t).hours_angle < 360) := by
  obtain ⟨hs0, hs1⟩ := clockSecondsFloat_bounds t
  obtain ⟨hm0, hm1⟩ := clockMinutesFloat_bounds t
  obtain ⟨hh0, hh1⟩ := clockTotalMinutes_bounds t
  have hb1 := snapField_bounds (clockSecondsFloat t) (clockSecondsTarget t) 60 6 (by norm_num)
    (clockSecondsTarget_eq_floor t) hs0 (by exact_mod_cast hs1)
  have hb2 := snapField_bounds (clockMinutesFloat t) (clockMinutesTarget t) 60 6 (by norm_num)
    (clockMinutesTarget_eq_floor t) hm0 (by exact_mod_cast hm1)
  have hb3 := snapField_bounds (clockTotalMinutes t) (clockHoursTarget t) 720 (1/2) (by norm_num)
    (clockHoursTarget_eq_floor t) hh0 (by exact_mod_cast hh1)
  simp only [clockSnap]
  norm_num at hb1 hb2 hb3 ⊢
  exact ⟨⟨hb1.1, hb1.2⟩, ⟨hb2.1, hb2.2⟩, ⟨hb3.1, hb3.2⟩⟩

theorem stopSnap_bounds (st : ℚ) :
    (0 ≤ (stopSnap st).seconds_angle ∧ (stopSnap st).seconds_angle < 360) ∧
    (0 ≤ (stopSnap st).minutes_angle ∧ (stopSnap st).minutes_angle < 360) ∧
    (0 ≤ (stopSnap st).hours_angle ∧ (stopSnap st).hours_angle < 360) := by
  have hs0 := qfmod_nonneg st 60 (by norm_num)
  have hs1 := qfmod_lt st 60 (by norm_num)
  have hm0 := qfmod_nonneg (st / 60) 60 (by norm_num)
  have hm1 := qfmod_lt (st / 60) 60 (by norm_num)
  have hh0 := qfmod_nonneg (st / 60) 720 (by norm_num)
  have hh1 := qfmod_lt (st / 60) 720 (by norm_num)
  have hb1 := snapField_bounds (stopSecondsFloat st) (stopSecondsTarget st) 60 6 (by norm_num)
    (by unfold stopSecondsTarget; exact ratTrunc_of_nonneg _ hs0) hs0 (by exact_mod_cast hs1)
  have hb2 := snapField_bounds (stopMinutesFloat st) (stopMinutesTarget st) 60 6 (by norm_num)
    (by unfold stopMinutesTarget; exact ratTrunc_of_nonneg _ hm0) hm0 (by exact_mod_cast hm1)
  have hb3 := snapField_bounds (stopTotalMinutes st) (stopHoursTarget st) 720 (1/2) (by norm_num)
    (by unfold stopHoursTarget; exact ratTrunc_of_nonneg _ hh0) hh0 (by exact_mod_cast hh1)
  simp only [stopSnap]
  norm_num at hb1 hb2 hb3 ⊢
  exact ⟨⟨hb1.1, hb1.2⟩, ⟨hb2.1, hb2.2⟩, ⟨hb3.1, hb3.2⟩⟩

theorem ChronographEngine.valid_update (e : ChronographEngine) (hv : e.Valid) (t1 t2 t3 : ℤ) :
    ({ e with seconds_hand := e.seconds_hand.movedTo t1
              minutes_hand := e.minutes_hand.movedTo t2
              hours_hand := e.hours_hand.movedTo t3 } : ChronographEngine).Valid := by
  obtain ⟨hs, hsp, hsd, hm1, hmp, hmd, hh, hhp, hhd⟩ := hv
  exact ⟨e.seconds_hand.movedTo_valid hs t1, hsp, hsd,
    e.minutes_hand.movedTo_valid hm1 t2, hmp, hmd,
    e.hours_hand.movedTo_valid hh t3, hhp, hhd⟩

theorem sub_emod_norm_left (t c N : ℤ) (hc0 : 0 ≤ c) (hcN : c < N) :
    (t - c) % N = (t % N - c) % N := by
  rw [Int.sub_emod t c N, Int.sub_emod (t % N) c N, Int.emod_emod_of_dvd _ dvd_rfl,
    Int.emod_eq_of_lt hc0 hcN]

theorem sub_emod_norm_right (t c N : ℤ) (hc0 : 0 ≤ c) (hcN : c < N) :
    (c - t) % N = (c - t % N) % N := by
  rw [Int.sub_emod c t N, Int.sub_emod c (t % N) N, Int.emod_emod_of_dvd _ dvd_rfl,
    Int.emod_eq_of_lt hc0 hcN]

/-- C1: for every HandRing built with N > 0 positions (a valid ring) and every
integer target t, move_to_index(t) succeeds and leaves the cursor exactly at
the non-negative remainder t mod N, whatever the cursor was before; the move
is carried out by step_forward when the forward distance (t - current) mod N
is at most the backward distance (current - t) mod N, and by step_backward
otherwise. -/
theorem C1_move_to_index_shortest_path (r : HandRing) (h : r.Valid) (t : ℤ) :
    ∃ r', r.move_to_index t = .ok r' ∧
      (r'.current_index : ℤ) = t % (r.positions : ℤ) ∧
      0 ≤ t % (r.positions : ℤ) ∧
      r'.Valid ∧
      ((t - (r.current_index : ℤ)) % (r.positions : ℤ) ≤
          ((r.current_index : ℤ) - t) % (r.positions : ℤ) →
        r.ring.step_forward ((t - (r.current_index : ℤ)) % (r.positions : ℤ)) = .ok r'.ring) ∧
      (((r.current_index : ℤ) - t) % (r.positions : ℤ) <
          (t - (r.current_index : ℤ)) % (r.positions : ℤ) →
        r.ring.step_backward (((r.current_index : ℤ) - t) % (r.positions : ℤ)) =
          .ok r'.ring) := by
  obtain ⟨hpos, hvals, hcur, hmirror⟩ := h
  have hlen : r.ring.values.length = r.positions := HandRing.values_length r ⟨hpos, hvals, hcur, hmirror⟩
  have hlenne : r.ring.values.length ≠ 0 := by omega
  have hNz : ((r.positions : ℤ)) ≠ 0 := by exact_mod_cast hpos.ne'
  have hNpos : (0 : ℤ) < (r.positions : ℤ) := by exact_mod_cast hpos
  have hn0 : 0 ≤ t % (r.positions : ℤ) := Int.emod_nonneg _ hNz
  have hnN : t % (r.positions : ℤ) < (r.positions : ℤ) := Int.emod_lt_of_pos _ hNpos
  have hc0 : (0 : ℤ) ≤ (r.current_index : ℤ) := by positivity
  have hcN : (r.current_index : ℤ) < (r.positions : ℤ) := by
    rw [hmirror]
    exact_mod_cast hcur
  refine ⟨r.movedTo t, r.move_to_index_eq ⟨hpos, hvals, hcur, hmirror⟩ t, ?_, hn0,
    r.movedTo_valid ⟨hpos, hvals, hcur, hmirror⟩ t, ?_, ?_⟩
  · rw [HandRing.movedTo_current_index]
    exact Int.toNat_of_nonneg hn0
  · intro hle
    have hstep := r.ring.step_forward_eq hlenne ((t - (r.current_index : ℤ)) % (r.positions : ℤ))
    rw [hlen] at hstep
    rw [hstep]
    have harg : ((t - (r.current_index : ℤ)) % (r.positions : ℤ)) % (r.positions : ℤ)
        = (t % (r.positions : ℤ) - (r.ring.current : ℤ)) % (r.positions : ℤ) := by
      rw [Int.emod_emod_of_dvd _ dvd_rfl, sub_emod_norm_left t _ _ hc0 hcN, hmirror]
    rw [harg]
    have hc' := cursor_fwd r.positions r.ring.current (t % (r.positions : ℤ)) hpos hn0 hnN
    simp only [HandRing.movedTo, hmirror, hc']
  · intro hlt
    have hstep := r.ring.step_backward_eq hlenne (((r.current_index : ℤ) - t) % (r.positions : ℤ))
    rw [hlen] at hstep
    rw [hstep]
    have harg : (((r.current_index : ℤ) - t) % (r.positions : ℤ)) % (r.positions : ℤ)
        = ((r.ring.current : ℤ) - t % (r.positions : ℤ)) % (r.positions : ℤ) := by
      rw [Int.emod_emod_of_dvd _ dvd_rfl, sub_emod_norm_right t _ _ hc0 hcN, hmirror]
    rw [harg]
    have hc' := cursor_bwd r.positions r.ring.current (t % (r.positions : ℤ)) hpos hn0 hnN
    simp only [HandRing.movedTo, hmirror, hc']

/-- C4: set_mode(Clock) is a no-op when the mode is already Clock; from
Stopwatch mode it stops the stopwatch, clears the start time and switches the
mode; in every successful case the accumulated stopwatch duration is exactly
preserved. -/
theorem C4_set_mode_clock (e : ChronographEngine) :
    (e.mode = ChronographEngine.MODE_CLOCK →
      ChronographEngine.set_mode e ChronographEngine.MODE_CLOCK = .ok e) ∧
    (e.mode = ChronographEngine.MODE_STOPWATCH →
      ChronographEngine.set_mode e ChronographEngine.MODE_CLOCK = .ok
        { e with mode := ChronographEngine.MODE_CLOCK, stopwatch_running := false,
                 stopwatch_start_time := none }) ∧
    (∀ e', ChronographEngine.set_mode e ChronographEngine.MODE_CLOCK = .ok e' →
      e'.stopwatch_accumulated = e.stopwatch_accumulated ∧
      e'.mode = ChronographEngine.MODE_CLOCK ∧ e'.stopwatch_running = false ∧
      e'.stopwatch_start_time = none ∨ e.mode = ChronographEngine.MODE_CLOCK ∧ e' = e) := by
  refine ⟨?_, ?_, ?_⟩
  · intro hm
    simp [ChronographEngine.set_mode, hm, ChronographEngine.MODE_CLOCK,
      ChronographEngine.MODE_STOPWATCH]
  · intro hm
    simp [ChronographEngine.set_mode, hm, ChronographEngine.MODE_CLOCK,
      ChronographEngine.MODE_STOPWATCH]
  · intro e' h
    unfold ChronographEngine.set_mode at h
    split_ifs at h with h1 h2
    · simp only [Except.ok.injEq] at h
      subst h
      exact Or.inr ⟨h2, rfl⟩
    · simp only [Except.ok.injEq] at h
      subst h
      exact Or.inl ⟨rfl, rfl, rfl, rfl⟩
    · exact absurd rfl (by assumption)

/-- C8: constructing a hand ring fails exactly when the position count is not
positive, and set_mode fails exactly when handed a string that is neither of
the two mode constants; a failing set_mode leaves the engine unchanged, and
the non-error cases succeed. -/
theorem C8_invalid_arguments :
    (∀ p : ℤ, ∀ d : ℚ, (∃ msg, HandRing.make p d = .error msg) ↔ p ≤ 0) ∧
    (∀ p : ℤ, ∀ d : ℚ, 0 < p → ∃ r, HandRing.make p d = .ok r) ∧
    (∀ e m, (∃ msg, ChronographEngine.set_mode e m = .error msg) ↔
      (m ≠ ChronographEngine.MODE_CLOCK ∧ m ≠ ChronographEngine.MODE_STOPWATCH)) ∧
    (∀ e m, m ≠ ChronographEngine.MODE_CLOCK → m ≠ ChronographEngine.MODE_STOPWATCH →
      ChronographEngine.set_mode_run e m = e) ∧
    (∀ e m, (m = ChronographEngine.MODE_CLOCK ∨ m = ChronographEngine.MODE_STOPWATCH) →
      ∃ e', ChronographEngine.set_mode e m = .ok e') := by
  refine ⟨?_, ?_, ?_, ?_, ?_⟩
  · intro p d
    constructor
    · rintro ⟨msg, hmsg⟩
      by_contra hp
      simp [HandRing.make, hp] at hmsg
    · intro hp
      refine ⟨"positions must be positive.", ?_⟩
      simp [HandRing.make, hp]
  · intro p d hp
    refine ⟨{ positions := p.toNat, degrees_per_step := d,
              ring := .ofList ((List.range p.toNat).map fun i =>
                { index := i, angle_degrees := (i : ℚ) * d }),
              current_index := 0 }, ?_⟩
    unfold HandRing.make
    rw [if_neg (not_le.mpr hp)]
  · intro e m
    constructor
    · rintro ⟨msg, hmsg⟩
      unfold ChronographEngine.set_mode at hmsg
      split_ifs at hmsg with h1
      · exact h1
    · intro hm
      refine ⟨"mode must be clock or stopwatch.", ?_⟩
      simp [ChronographEngine.set_mode, hm.1, hm.2]
  · intro e m h1 h2
    simp [ChronographEngine.set_mode_run, ChronographEngine.set_mode, h1, h2]
  · intro e m hm
    unfold ChronographEngine.set_mode
    split_ifs with h1 h2 h3
    · rcases hm with hm | hm <;> exact absurd hm (by tauto)
    · exact ⟨e, rfl⟩
    · exact ⟨_, rfl⟩
    · exact ⟨_, rfl⟩

theorem ChronographEngine.snapshot_ok_frame (clock : ℕ → ℤ) (e : ChronographEngine) (k : ℕ)
    (s : ChronographSnapshot) (e' : ChronographEngine) (k' : ℕ)
    (h : ChronographEngine.snapshot clock e k = .ok (s, e', k')) :
    e'.mode = e.mode ∧ e'.stopwatch_running = e.stopwatch_running ∧
    e'.stopwatch_accumulated = e.stopwatch_accumulated ∧
    e'.stopwatch_start_time = e.stopwatch_start_time := by
  unfold ChronographEngine.snapshot at h
  split_ifs at h <;>
  · simp only [except_bind_eq_ok, Except.ok.injEq, Prod.mk.injEq] at h
    obtain ⟨a1, h1, b1, g1, a2, h2, b2, g2, a3, h3, b3, g3, hs, he, hk⟩ := h
    subst he
    exact ⟨rfl, rfl, rfl, rfl⟩

theorem ChronographEngine.stopwatch_elapsed_congr (clock clock2 : ℕ → ℤ) (k k2 : ℕ)
    (e : ChronographEngine) (hr : clock2 k2 = clock k) :
    (ChronographEngine.stopwatch_elapsed clock2 e k2).1 =
      (ChronographEngine.stopwatch_elapsed clock e k).1 ∧
    (ChronographEngine.stopwatch_elapsed clock2 e k2).2 =
      k2 + ((ChronographEngine.stopwatch_elapsed clock e k).2 - k) := by
  unfold ChronographEngine.stopwatch_elapsed ChronographEngine.current_time
  cases hrun : e.stopwatch_running <;> cases hst : e.stopwatch_start_time <;> simp [hr]

/-- C3: the data-model invariant that the stopwatch start time is recorded
exactly while the stopwatch is running holds in the freshly constructed
engine and is preserved by set_mode, start_stopwatch, stop_stopwatch,
reset_stopwatch and snapshot (stopwatch_elapsed computes a duration without
producing a new engine state, so there is nothing for it to preserve). -/
theorem C3_stopwatch_invariant :
    engine0.StopwatchInv ∧
    (∀ e m e', e.StopwatchInv → ChronographEngine.set_mode e m = .ok e' → e'.StopwatchInv) ∧
    (∀ clock e k e' k', e.StopwatchInv →
      ChronographEngine.start_stopwatch clock e k = .ok (e', k') → e'.StopwatchInv) ∧
    (∀ clock e k, e.StopwatchInv →
      (ChronographEngine.stop_stopwatch clock e k).1.StopwatchInv) ∧
    (∀ clock e k, e.StopwatchInv →
      (ChronographEngine.reset_stopwatch clock e k).1.StopwatchInv) ∧
    (∀ clock e k s e' k', e.StopwatchInv →
      ChronographEngine.snapshot clock e k = .ok (s, e', k') → e'.StopwatchInv) := by
  have hset : ∀ e m e', e.StopwatchInv → ChronographEngine.set_mode e m = .ok e' →
      e'.StopwatchInv := by
    intro e m e' hinv h
    unfold ChronographEngine.set_mode at h
    by_cases h1 : m ≠ ChronographEngine.MODE_CLOCK ∧ m ≠ ChronographEngine.MODE_STOPWATCH
    · rw [if_pos h1] at h
      cases h
    · rw [if_neg h1] at h
      by_cases h2 : e.mode = m
      · rw [if_pos h2] at h
        simp only [Except.ok.injEq] at h
        subst h
        exact hinv
      · rw [if_neg h2] at h
        by_cases h3 : m = ChronographEngine.MODE_CLOCK
        · rw [if_pos h3] at h
          simp only [Except.ok.injEq] at h
          subst h
          simp [ChronographEngine.StopwatchInv]
        · rw [if_neg h3] at h
          simp only [Except.ok.injEq] at h
          subst h
          exact hinv
  refine ⟨rfl, hset, ?_, ?_, ?_, ?_⟩
  · intro clock e k e' k' hinv h
    unfold ChronographEngine.start_stopwatch at h
    simp only [ne_eq] at h
    have hjp : ∀ a : ChronographEngine, a.StopwatchInv →
        (if a.stopwatch_running = true then Except.ok (a, k)
         else Except.ok (({ a with
             stopwatch_running := true
             stopwatch_start_time := some (ChronographEngine.current_time clock k).1 } :
             ChronographEngine), (ChronographEngine.current_time clock k).2)) =
          (Except.ok (e', k') : Except String (ChronographEngine × ℕ)) → e'.StopwatchInv := by
      intro a hainv hh
      by_cases h2 : a.stopwatch_running = true
      · rw [if_pos h2] at hh
        simp only [Except.ok.injEq, Prod.mk.injEq] at hh
        rw [← hh.1]
        exact hainv
      · rw [if_neg h2] at hh
        simp only [Except.ok.injEq, Prod.mk.injEq] at hh
        rw [← hh.1]
        simp [ChronographEngine.StopwatchInv]
    by_cases h1 : e.mode = ChronographEngine.MODE_STOPWATCH
    · rw [if_neg (not_not_intro h1), except_ok_bind] at h
      exact hjp e hinv h
    · rw [if_pos h1, except_bind_eq_ok] at h
      obtain ⟨a, ha, h⟩ := h
      exact hjp a (hset e _ a hinv ha) h
  · intro clock e k hinv
    cases hrun : e.stopwatch_running <;> cases hst : e.stopwatch_start_time <;>
      simp_all [ChronographEngine.stop_stopwatch, ChronographEngine.StopwatchInv]
  · intro clock e k hinv
    cases hrun : e.stopwatch_running <;>
      simp [ChronographEngine.reset_stopwatch, ChronographEngine.StopwatchInv, hrun,
        ChronographEngine.current_time]
  · intro clock e k s e' k' hinv h
    obtain ⟨_, hrun, _, hstart⟩ := ChronographEngine.snapshot_ok_frame clock e k s e' k' h
    unfold ChronographEngine.StopwatchInv
    rw [hrun, hstart]
    exact hinv

/-- C5 amended: snapshot() performs exactly one time-source reading when the
engine is in clock mode or when the stopwatch is running; in stopwatch mode
with the stopwatch stopped it performs no reading at all (stopwatch_elapsed
returns the accumulated duration without consulting the time source). -/
theorem C5_time_source_readings (clock : ℕ → ℤ) (e : ChronographEngine) (k : ℕ)
    (hv : e.Valid) (hinv : e.StopwatchInv) :
    ∃ s e', ChronographEngine.snapshot clock e k = .ok (s, e',
      if e.mode = ChronographEngine.MODE_STOPWATCH ∧ e.stopwatch_running = false then k
      else k + 1) := by
  by_cases hm : e.mode = ChronographEngine.MODE_STOPWATCH
  · have hsnap := ChronographEngine.snapshot_stopwatch_eq clock e k hv hm
    cases hrun : e.stopwatch_running
    · have hst : e.stopwatch_start_time = none := by
        unfold ChronographEngine.StopwatchInv at hinv
        rw [hrun] at hinv
        cases hcase : e.stopwatch_start_time
        · rfl
        · rw [hcase] at hinv
          cases hinv
      have hel : (ChronographEngine.stopwatch_elapsed clock e k).2 = k := by
        unfold ChronographEngine.stopwatch_elapsed
        rw [hrun, hst]
      rw [hel] at hsnap
      rw [if_pos ⟨hm, rfl⟩]
      exact ⟨_, _, hsnap⟩
    · obtain ⟨st, hst⟩ : ∃ st, e.stopwatch_start_time = some st := by
        unfold ChronographEngine.StopwatchInv at hinv
        rw [hrun] at hinv
        cases hcase : e.stopwatch_start_time
        · rw [hcase] at hinv
          cases hinv
        · exact ⟨_, rfl⟩
      have hel : (ChronographEngine.stopwatch_elapsed clock e k).2 = k + 1 := by
        unfold ChronographEngine.stopwatch_elapsed ChronographEngine.current_time
        rw [hrun, hst]
      rw [hel] at hsnap
      rw [if_neg (by simp)]
      exact ⟨_, _, hsnap⟩
  · have hsnap := ChronographEngine.snapshot_clock_eq clock e k hv hm
    rw [if_neg (fun hand => hm hand.1)]
    exact ⟨_, _, hsnap⟩

/-- C6: in clock mode, when the time source returns the same instant on two
consecutive reads, two consecutive snapshot() calls return identical
snapshots (the second call finds every cursor already on target). -/
theorem C6_round_trip (clock : ℕ → ℤ) (e : ChronographEngine) (k : ℕ)
    (hv : e.Valid) (hm : e.mode = ChronographEngine.MODE_CLOCK)
    (hc : clock (k + 1) = clock k) :
    ∃ s1 e1 s2 e2, ChronographEngine.snapshot clock e k = .ok (s1, e1, k + 1) ∧
      ChronographEngine.snapshot clock e1 (k + 1) = .ok (s2, e2, k + 1 + 1) ∧ s2 = s1 := by
  have hm' : ¬ e.mode = ChronographEngine.MODE_STOPWATCH := by
    rw [hm]
    decide
  have h1 := ChronographEngine.snapshot_clock_eq clock e k hv hm'
  have h2 := ChronographEngine.snapshot_clock_eq clock _ (k + 1)
    (ChronographEngine.valid_update e hv (clockSecondsTarget (clock k))
      (clockMinutesTarget (clock k)) (clockHoursTarget (clock k))) hm'
  exact ⟨clockSnap (clock k), _, clockSnap (clock (k + 1)), _, h1, h2, by rw [hc]⟩

/-- C9: snapshot() succeeds on every well-formed engine and leaves the mode,
the running flag, the accumulated duration and the start time untouched; of
the hand rings it can change only the cursors, never the stored positions,
sizes or step angles; and the snapshot it returns is a function of the engine
state and the single instant read, so any time source supplying the same
instant yields the same snapshot. -/
theorem C9_snapshot_frame (clock : ℕ → ℤ) (e : ChronographEngine) (k : ℕ) (hv : e.Valid) :
    ∃ s e' k', ChronographEngine.snapshot clock e k = .ok (s, e', k') ∧
      e'.mode = e.mode ∧ e'.stopwatch_running = e.stopwatch_running ∧
      e'.stopwatch_accumulated = e.stopwatch_accumulated ∧
      e'.stopwatch_start_time = e.stopwatch_start_time ∧
      e'.seconds_hand.ring.values = e.seconds_hand.ring.values ∧
      e'.minutes_hand.ring.values = e.minutes_hand.ring.values ∧
      e'.hours_hand.ring.values = e.hours_hand.ring.values ∧
      e'.seconds_hand.positions = e.seconds_hand.positions ∧
      e'.minutes_hand.positions = e.minutes_hand.positions ∧
      e'.hours_hand.positions = e.hours_hand.positions ∧
      e'.seconds_hand.degrees_per_step = e.seconds_hand.degrees_per_step ∧
      e'.minutes_hand.degrees_per_step = e.minutes_hand.degrees_per_step ∧
      e'.hours_hand.degrees_per_step = e.hours_hand.degrees_per_step ∧
      (∀ clock2 k2, clock2 k2 = clock k →
        ∃ e2, ChronographEngine.snapshot clock2 e k2 = .ok (s, e2, k2 + (k' - k))) := by
  by_cases hm : e.mode = ChronographEngine.MODE_STOPWATCH
  · have h1 := ChronographEngine.snapshot_stopwatch_eq clock e k hv hm
    refine ⟨_, _, _, h1, rfl, rfl, rfl, rfl, rfl, rfl, rfl, rfl, rfl, rfl, rfl, rfl, rfl, ?_⟩
    intro clock2 k2 hr
    have hcongr := ChronographEngine.stopwatch_elapsed_congr clock clock2 k k2 e hr
    have h2 := ChronographEngine.snapshot_stopwatch_eq clock2 e k2 hv hm
    rw [hcongr.1, hcongr.2] at h2
    exact ⟨_, h2⟩
  · have h1 := ChronographEngine.snapshot_clock_eq clock e k hv hm
    refine ⟨_, _, _, h1, rfl, rfl, rfl, rfl, rfl, rfl, rfl, rfl, rfl, rfl, rfl, rfl, rfl, ?_⟩
    intro clock2 k2 hr
    have h2 := ChronographEngine.snapshot_clock_eq clock2 e k2 hv hm
    rw [hr] at h2
    have hk : k2 + (k + 1 - k) = k2 + 1 := by omega
    rw [hk]
    exact ⟨_, h2⟩

/-- C10: every snapshot produced by snapshot() on a well-formed engine, in
either mode, for any instant read from the time source and even for a
negative stopwatch elapsed duration, carries three angles inside the
half-open interval from 0 to 360 degrees. -/
theorem C10_angles_in_range (clock : ℕ → ℤ) (e : ChronographEngine) (k : ℕ) (hv : e.Valid) :
    ∃ s e' k', ChronographEngine.snapshot clock e k = .ok (s, e', k') ∧
      0 ≤ s.seconds_angle ∧ s.seconds_angle < 360 ∧
      0 ≤ s.minutes_angle ∧ s.minutes_angle < 360 ∧
      0 ≤ s.hours_angle ∧ s.hours_angle < 360 := by
  by_cases hm : e.mode = ChronographEngine.MODE_STOPWATCH
  · have h1 := ChronographEngine.snapshot_stopwatch_eq clock e k hv hm
    obtain ⟨⟨b1, b2⟩, ⟨b3, b4⟩, b5, b6⟩ := stopSnap_bounds
      (((ChronographEngine.stopwatch_elapsed clock e k).1 : ℚ) / 1000000)
    exact ⟨_, _, _, h1, b1, b2, b3, b4, b5, b6⟩
  · have h1 := ChronographEngine.snapshot_clock_eq clock e k hv hm
    obtain ⟨⟨b1, b2⟩, ⟨b3, b4⟩, b5, b6⟩ := clockSnap_bounds (clock k)
    exact ⟨_, _, _, h1, b1, b2, b3, b4, b5, b6⟩

theorem engine0_valid : engine0.Valid :=
  ⟨⟨(show (0:ℕ) < 60 by norm_num), rfl, (show (0:ℕ) < 60 by norm_num), rfl⟩, rfl, rfl,
   ⟨(show (0:ℕ) < 60 by norm_num), rfl, (show (0:ℕ) < 60 by norm_num), rfl⟩, rfl, rfl,
   ⟨(show (0:ℕ) < 720 by norm_num), rfl, (show (0:ℕ) < 720 by norm_num), rfl⟩, rfl, rfl⟩

theorem engineSW_valid : engineSW.Valid := engine0_valid

theorem engine0_mode_not_stopwatch : ¬ engine0.mode = ChronographEngine.MODE_STOPWATCH := by
  simp [engine0, ChronographEngine.MODE_CLOCK, ChronographEngine.MODE_STOPWATCH]

theorem snapshot_clock_ok (clock : ℕ → ℤ) (e : ChronographEngine) (k : ℕ)
    (hv : e.Valid) (hm : ¬ e.mode = ChronographEngine.MODE_STOPWATCH) :
    ∃ e', ChronographEngine.snapshot clock e k = .ok (clockSnap (clock k), e', k + 1) ∧
      e'.Valid ∧ e'.mode = e.mode :=
  ⟨_, ChronographEngine.snapshot_clock_eq clock e k hv hm,
    ChronographEngine.valid_update e hv _ _ _, rfl⟩

theorem clockSnapC2_eq : clockSnap instantC2 = ⟨183, 1861/20, 23461/240⟩ := by
  norm_num [clockSnap, clockSecondsTarget, clockSecondsFloat, clockMinutesTarget,
    clockMinutesFloat, clockTotalMinutes, clockHoursTarget, DateTime.second, DateTime.minute,
    DateTime.hour, DateTime.microsecond, instantC2, ratTrunc, clamp01,
    show ((30:ℤ).toNat = 30) from rfl, show ((15:ℤ).toNat = 15) from rfl,
    show ((195:ℤ).toNat = 195) from rfl]

/-- C2: in clock mode, reading 2024-01-01 03:15:30.500000 (embedded as the
microsecond count of 03:15:30.500000 after midnight) yields a snapshot with
seconds angle exactly 183 degrees, minutes angle within the claimed relative
tolerance of 93.05 degrees (it is exactly 93.05), and hours angle within the
claimed relative tolerance of 97.754166 degrees. -/
theorem C2_scenario1_angles :
    ∃ s e', ChronographEngine.snapshot clockC2 engine0 0 = .ok (s, e', 1) ∧
      |s.seconds_angle - 183| ≤ 1/1000000 ∧
      |s.minutes_angle - 9305/100| ≤ (1/10000) * (9305/100) ∧
      |s.hours_angle - 97754166/1000000| ≤ (1/10000) * (97754166/1000000) := by
  have h1 := ChronographEngine.snapshot_clock_eq clockC2 engine0 0 engine0_valid
    engine0_mode_not_stopwatch
  refine ⟨clockSnap (clockC2 0), _, h1, ?_, ?_, ?_⟩ <;>
  · rw [show clockC2 0 = instantC2 from rfl, clockSnapC2_eq]
    norm_num [abs_le]

/-- C5 counterexample: in stopwatch mode with the stopwatch not running,
snapshot() consumes no time-source reading at all: starting at stream
position 0 it returns with the stream still at position 0, not at position 1
as one reading per call would require. -/
theorem C5_counterexample :
    (∃ s e', ChronographEngine.snapshot (fun _ => 0) engineSW 0 = .ok (s, e', 0)) ∧
    ¬ ∃ s e', ChronographEngine.snapshot (fun _ => 0) engineSW 0 = .ok (s, e', 1) := by
  have h1 := ChronographEngine.snapshot_stopwatch_eq (fun _ => 0) engineSW 0 engineSW_valid rfl
  have hel : ChronographEngine.stopwatch_elapsed (fun _ => 0) engineSW 0 = (0, 0) := rfl
  rw [hel] at h1
  constructor
  · exact ⟨_, _, h1⟩
  · rintro ⟨s, e', h⟩
    rw [h1] at h
    simp at h

theorem c7run_eq : c7run = .ok (⟨0, 0, 300⟩, ⟨6, 1/10, 36001/120⟩, ⟨0, 6, 601/2⟩,
    ⟨270, 81/2, 2667/8⟩) := by
  obtain ⟨e1, h1, hv1, hmode1⟩ := snapshot_clock_ok clock7 engine0 0 engine0_valid
    engine0_mode_not_stopwatch
  have hm1 : ¬ e1.mode = ChronographEngine.MODE_STOPWATCH := by
    rw [hmode1]
    exact engine0_mode_not_stopwatch
  obtain ⟨e2, h2, hv2, hmode2⟩ := snapshot_clock_ok clock7 e1 (0 + 1) hv1 hm1
  have hm2 : ¬ e2.mode = ChronographEngine.MODE_STOPWATCH := by rw [hmode2]; exact hm1
  obtain ⟨e3, h3, hv3, hmode3⟩ := snapshot_clock_ok clock7 e2 (0 + 1 + 1) hv2 hm2
  obtain ⟨e4, h4, hv4, hmode4⟩ := snapshot_clock_ok clock7 e3 (0 + 1 + 1 + 1) hv3
    (by rw [hmode3]; exact hm2)
  unfold c7run
  simp only [h1, except_ok_bind, h2, h3, h4]
  norm_num [clock7, c7times, clockSnap, clockSecondsTarget, clockSecondsFloat,
    clockMinutesTarget, clockMinutesFloat, clockTotalMinutes, clockHoursTarget,
    DateTime.second, DateTime.minute, DateTime.hour, DateTime.microsecond, ratTrunc, clamp01,
    show ((0:ℤ).toNat = 0) from rfl, show ((1:ℤ).toNat = 1) from rfl,
    show ((6:ℤ).toNat = 6) from rfl, show ((45:ℤ).toNat = 45) from rfl,
    show ((600:ℤ).toNat = 600) from rfl, show ((601:ℤ).toNat = 601) from rfl,
    show ((666:ℤ).toNat = 666) from rfl]

/-- C7 counterexample: for the concrete progression of the four instants
10:00:00, +1s, +59s more, +1h5m45s more, the four snapshots do not have
strictly increasing angles on all three hands: the seconds angle goes from 6
degrees in the second snapshot back to 0 degrees in the third (the seconds
hand wraps at the minute boundary). -/
theorem C7_counterexample :
    ¬ ∀ s1 s2 s3 s4, c7run = .ok (s1, s2, s3, s4) →
      (s1.seconds_angle < s2.seconds_angle ∧ s2.seconds_angle < s3.seconds_angle ∧
        s3.seconds_angle < s4.seconds_angle) ∧
      (s1.minutes_angle < s2.minutes_angle ∧ s2.minutes_angle < s3.minutes_angle ∧
        s3.minutes_angle < s4.minutes_angle) ∧
      (s1.hours_angle < s2.hours_angle ∧ s2.hours_angle < s3.hours_angle ∧
        s3.hours_angle < s4.hours_angle) := by
  intro h
  have h2 := (h _ _ _ _ c7run_eq).1.2.1
  norm_num at h2

/-- C7 amended: for the concrete progression of the four instants, the minutes
and hours angles strictly increase across all four snapshots, and the seconds
angle strictly increases from the first snapshot to the second and from the
third to the fourth; only the second-to-third seconds comparison fails, the
seconds hand wrapping back to 0 degrees at the minute boundary. -/
theorem C7_progression_amended :
    ∃ s1 s2 s3 s4, c7run = .ok (s1, s2, s3, s4) ∧
      s1.seconds_angle < s2.seconds_angle ∧ s3.seconds_angle < s4.seconds_angle ∧
      s1.minutes_angle < s2.minutes_angle ∧ s2.minutes_angle < s3.minutes_angle ∧
      s3.minutes_angle < s4.minutes_angle ∧
      s1.hours_angle < s2.hours_angle ∧ s2.hours_angle < s3.hours_angle ∧
      s3.hours_angle < s4.hours_angle :=
  ⟨_, _, _, _, c7run_eq, by norm_num, by norm_num, by norm_num, by norm_num,
    by norm_num, by norm_num, by norm_num, by norm_num⟩

theorem C1_witness :
    ∃ r', engine0.seconds_hand.move_to_index (-7) = .ok r' ∧
      (r'.current_index : ℤ) = -7 % (engine0.seconds_hand.positions : ℤ) ∧
      0 ≤ -7 % (engine0.seconds_hand.positions : ℤ) ∧
      r'.Valid ∧
      ((-7 - (engine0.seconds_hand.current_index : ℤ)) % (engine0.seconds_hand.positions : ℤ) ≤
          ((engine0.seconds_hand.current_index : ℤ) - -7) %
            (engine0.seconds_hand.positions : ℤ) →
        engine0.seconds_hand.ring.step_forward
          ((-7 - (engine0.seconds_hand.current_index : ℤ)) %
            (engine0.seconds_hand.positions : ℤ)) = .ok r'.ring) ∧
      (((engine0.seconds_hand.current_index : ℤ) - -7) %
          (engine0.seconds_hand.positions : ℤ) <
          (-7 - (engine0.seconds_hand.current_index : ℤ)) %
            (engine0.seconds_hand.positions : ℤ) →
        engine0.seconds_hand.ring.step_backward
          (((engine0.seconds_hand.current_index : ℤ) - -7) %
            (engine0.seconds_hand.positions : ℤ)) = .ok r'.ring) :=
  C1_move_to_index_shortest_path engine0.seconds_hand engine0_valid.1 (-7)

theorem C3_witness : engineSW.StopwatchInv :=
  C3_stopwatch_invariant.2.1 engine0 ChronographEngine.MODE_STOPWATCH engineSW rfl rfl

theorem C4_witness :
    ChronographEngine.set_mode engineSW ChronographEngine.MODE_CLOCK = .ok
      { engineSW with mode := ChronographEngine.MODE_CLOCK, stopwatch_running := false,
                      stopwatch_start_time := none } :=
  (C4_set_mode_clock engineSW).2.1 rfl

theorem C5_witness :
    ∃ s e', ChronographEngine.snapshot clockC2 engine0 0 = .ok (s, e',
      if engine0.mode = ChronographEngine.MODE_STOPWATCH ∧
          engine0.stopwatch_running = false then 0 else 0 + 1) :=
  C5_time_source_readings clockC2 engine0 0 engine0_valid rfl

theorem C6_witness :
    ∃ s1 e1 s2 e2, ChronographEngine.snapshot clockC2 engine0 0 = .ok (s1, e1, 0 + 1) ∧
      ChronographEngine.snapshot clockC2 e1 (0 + 1) = .ok (s2, e2, 0 + 1 + 1) ∧ s2 = s1 :=
  C6_round_trip clockC2 engine0 0 engine0_valid rfl rfl

theorem C8_witness :
    (∃ msg, HandRing.make 0 6 = .error msg) ∧
    (∃ r, HandRing.make 60 6 = .ok r) ∧
    (∃ msg, ChronographEngine.set_mode engine0 "paused" = .error msg) ∧
    ChronographEngine.set_mode_run engine0 "paused" = engine0 ∧
    (∃ e', ChronographEngine.set_mode engine0 ChronographEngine.MODE_STOPWATCH = .ok e') :=
  ⟨(C8_invalid_arguments.1 0 6).mpr (by norm_num),
   C8_invalid_arguments.2.1 60 6 (by norm_num),
   (C8_invalid_arguments.2.2.1 engine0 "paused").mpr ⟨by decide, by decide⟩,
   C8_invalid_arguments.2.2.2.1 engine0 "paused" (by decide) (by decide),
   C8_invalid_arguments.2.2.2.2 engine0 ChronographEngine.MODE_STOPWATCH (Or.inr rfl)⟩

theorem C9_witness :
    ∃ s e' k', ChronographEngine.snapshot clockC2 engine0 0 = .ok (s, e', k') ∧
      e'.mode = engine0.mode ∧ e'.stopwatch_running = engine0.stopwatch_running ∧
      e'.stopwatch_accumulated = engine0.stopwatch_accumulated ∧
      e'.stopwatch_start_time = engine0.stopwatch_start_time ∧
      e'.seconds_hand.ring.values = engine0.seconds_hand.ring.values ∧
      e'.minutes_hand.ring.values = engine0.minutes_hand.ring.values ∧
      e'.hours_hand.ring.values = engine0.hours_hand.ring.values ∧
      e'.seconds_hand.positions = engine0.seconds_hand.positions ∧
      e'.minutes_hand.positions = engine0.minutes_hand.positions ∧
      e'.hours_hand.positions = engine0.hours_hand.positions ∧
      e'.seconds_hand.degrees_per_step = engine0.seconds_hand.degrees_per_step ∧
      e'.minutes_hand.degrees_per_step = engine0.minutes_hand.degrees_per_step ∧
      e'.hours_hand.degrees_per_step = engine0.hours_hand.degrees_per_step ∧
      (∀ clock2 k2, clock2 k2 = clockC2 0 →
        ∃ e2, ChronographEngine.snapshot clock2 engine0 k2 = .ok (s, e2, k2 + (k' - 0))) :=
  C9_snapshot_frame clockC2 engine0 0 engine0_valid

theorem C10_witness :
    ∃ s e' k', ChronographEngine.snapshot clockC2 engine0 0 = .ok (s, e', k') ∧
      0 ≤ s.seconds_angle ∧ s.seconds_angle < 360 ∧
      0 ≤ s.minutes_angle ∧ s.minutes_angle < 360 ∧
      0 ≤ s.hours_angle ∧ s.hours_angle < 360 :=
  C10_angles_in_range clockC2 engine0 0 engine0_valid

end Reloj
